import Mathlib

/-!
Verification of the plugin subsystem of the AiChemistForge unified MCP server
(discovery, security, lifecycle registry), as a shallow embedding in Lean 4.

Python dictionaries are modelled as association lists in insertion order
(assignment replaces an existing key in place, otherwise appends); the
filesystem, module execution and plugin callbacks are modelled as oracle
fields carried by descriptors and path records.
-/

set_option autoImplicit false

namespace MCP

/-! ### Association lists modelling Python dict -/

def dkeys {α : Type} (l : List (String × α)) : List String := l.map (·.1)

def dlookup {α : Type} : List (String × α) → String → Option α
  | [], _ => none
  | (k2, v) :: rest, k => if k2 = k then some v else dlookup rest k

def dinsert {α : Type} (l : List (String × α)) (k : String) (v : α) : List (String × α) :=
  if k ∈ dkeys l then l.map (fun p => if p.1 = k then (k, v) else p) else l ++ [(k, v)]

def ddelete {α : Type} (l : List (String × α)) (k : String) : List (String × α) :=
  l.filter (fun p => p.1 ≠ k)

/-! ### Character-level string helpers mirroring the Python str operations used -/

def strLower (s : String) : String := ⟨s.data.map Char.toLower⟩

def strStartsWith (p s : String) : Bool := p.data.isPrefixOf s.data

def startsWithChar (s : String) (c : Char) : Bool :=
  match s.data with
  | [] => false
  | a :: _ => a = c

def splitOnChar (c : Char) : List Char → List (List Char)
  | [] => [[]]
  | a :: rest =>
    let r := splitOnChar c rest
    if a = c then [] :: r
    else
      match r with
      | [] => [[a]]
      | h :: t => (a :: h) :: t

def strSplitUnderscore (s : String) : List String :=
  (splitOnChar '_' s.data).map (fun l => ⟨l⟩)

def joinUnderscore : List String → String
  | [] => ""
  | [s] => s
  | s :: rest => s ++ "_" ++ joinUnderscore rest

/-! ### Security: permission matrix (security.py) -/

/-- The thirteen values of the PluginPermission enum, in declaration order. -/
def permissionValues : List String :=
  ["read_files", "write_files", "execute_commands", "network_access", "http_requests",
   "system_info", "environment_vars", "tool_composition", "other_tools",
   "database_read", "database_write", "config_read", "config_write"]

inductive PluginPermission where
  | readFiles | writeFiles | executeCommands | networkAccess | httpRequests
  | systemInfo | environmentVars | toolComposition | otherTools
  | databaseRead | databaseWrite | configRead | configWrite
  deriving DecidableEq

def PluginPermission.value : PluginPermission → String
  | .readFiles => "read_files"
  | .writeFiles => "write_files"
  | .executeCommands => "execute_commands"
  | .networkAccess => "network_access"
  | .httpRequests => "http_requests"
  | .systemInfo => "system_info"
  | .environmentVars => "environment_vars"
  | .toolComposition => "tool_composition"
  | .otherTools => "other_tools"
  | .databaseRead => "database_read"
  | .databaseWrite => "database_write"
  | .configRead => "config_read"
  | .configWrite => "config_write"

/-- The default permission policies dict built in PluginSecurity.__init__. -/
def default_permissions : List (String × Bool) :=
  [("read_files", false), ("write_files", false), ("execute_commands", false),
   ("network_access", false), ("http_requests", false), ("system_info", true),
   ("environment_vars", false), ("tool_composition", true), ("other_tools", false),
   ("database_read", false), ("database_write", false), ("config_read", true),
   ("config_write", false)]

/-- self.plugin_permissions: plugin name to a dict of permission-name to Bool. -/
abbrev PermTable := List (String × List (String × Bool))

def truthyValues : List String := ["true", "1", "yes", "on"]

/-- The two Python statements that create the inner dict if missing and then
set plugin_permissions[pluginName][permission] = enabled. -/
def store_permission (t : PermTable) (pluginName permission : String) (enabled : Bool) :
    PermTable :=
  dinsert t pluginName (dinsert ((dlookup t pluginName).getD []) permission enabled)

/-- One iteration of the environment loop in PluginSecurity._load_permission_config:
keys starting with PLUGIN_SECURITY_ are split on the underscore, the last token is
taken as the permission name and the middle tokens as the plugin name; a token that
is not a PluginPermission value is ignored. -/
def load_permission_step (t : PermTable) (kv : String × String) : PermTable :=
  if strStartsWith "PLUGIN_SECURITY_" kv.1 then
    let parts := strSplitUnderscore kv.1
    if parts.length ≥ 4 then
      let pluginName := strLower (joinUnderscore ((parts.drop 2).dropLast))
      let permission := strLower ((parts.getLast?).getD "")
      if permission ∈ permissionValues then
        store_permission t pluginName permission (strLower kv.2 ∈ truthyValues)
      else t
    else t
  else t

/-- PluginSecurity._load_permission_config over the whole environment,
starting from the empty plugin_permissions dict. -/
def load_permission_config (env : List (String × String)) : PermTable :=
  env.foldl load_permission_step []

/-- PluginSecurity.get_plugin_permissions: defaults first, then
permissions.update(plugin_specific) with the overrides stored for the
lower-cased plugin name. -/
def get_plugin_permissions (t : PermTable) (pluginName : String) : List (String × Bool) :=
  ((dlookup t (strLower pluginName)).getD []).foldl
    (fun acc p => dinsert acc p.1 p.2) default_permissions

/-- PluginSecurity.grant_permission. -/
def grant_permission (t : PermTable) (pluginName : String) (p : PluginPermission) : PermTable :=
  store_permission t (strLower pluginName) p.value true

/-- PluginSecurity.revoke_permission. -/
def revoke_permission (t : PermTable) (pluginName : String) (p : PluginPermission) : PermTable :=
  store_permission t (strLower pluginName) p.value false

/-! ### Security: path validation (security.py) -/

/-- The facts about one filesystem path that PluginSecurity.validate_plugin consults,
together with the outcome of the path-traversal check done by the external helper
validate_path (whose implementation lives outside this subsystem and is wrapped in a
try/except that fails closed). The resolved field is the canonicalized path string,
regularFile records whether the target is a regular file (a fact of the filesystem
that, notably, the validation code never reads). -/
structure PathInfo where
  resolved : String
  fsExists : Bool
  readable : Bool
  worldWritable : Bool
  regularFile : Bool
  validatePathOk : Bool
  deriving DecidableEq

/-- PluginSecurity._validate_file_permissions: readable and not world-writable. -/
def validate_file_permissions (info : PathInfo) : Bool :=
  if !info.readable then false
  else if info.worldWritable then false
  else true

/-- PluginSecurity._is_plugin_path_allowed: the resolved path string must start with
the resolved string of some allowed directory (configured plus default directories,
already resolved; directories whose resolution raises are skipped, hence absent). -/
def is_plugin_path_allowed (allowedDirs : List String) (info : PathInfo) : Bool :=
  allowedDirs.any (fun d => strStartsWith d info.resolved)

/-- PluginSecurity.validate_plugin: any exception from validate_path fails closed,
then existence, allowed location and file permissions are checked in order. -/
def validate_plugin (allowedDirs : List String) (info : PathInfo) : Bool :=
  if !info.validatePathOk then false
  else if !info.fsExists then false
  else if !(is_plugin_path_allowed allowedDirs info) then false
  else validate_file_permissions info

/-- Modelled from the spec: a location lies under an allowed directory when it equals
the directory or sits strictly below it in the directory tree (path-component
containment, written on resolved path strings with the / separator). Used only to
state the claim about allow-list containment, to be compared with the string-prefix
test that validate_plugin actually performs. -/
def lies_under (dir p : String) : Bool :=
  (p = dir) || strStartsWith (dir ++ "/") p

/-! ### Plugin loading from a module file (base.py) -/

/-- One attribute of an executed module, as seen by the dir() loop of
load_plugin_from_file: its name and the three tests applied to it. -/
structure ModuleAttr where
  attrName : String
  isType : Bool
  subclassOfBasePlugin : Bool
  isBasePluginItself : Bool
  deriving DecidableEq

/-- The filter in load_plugin_from_file collecting candidate plugin classes. -/
def plugin_classes (attrs : List ModuleAttr) : List ModuleAttr :=
  attrs.filter (fun a => a.isType && a.subclassOfBasePlugin && !a.isBasePluginItself)

/-- load_plugin_from_file: pathOk is the outcome of the external validate_path call,
specOk the outcome of building and executing the module spec; both raise on failure,
which the surrounding try turns into a ToolError. Zero or several candidate classes
are hard errors; a unique candidate is returned. -/
def load_plugin_from_file (pathOk specOk : Bool) (attrs : List ModuleAttr) :
    Except String ModuleAttr :=
  if !pathOk then .error "path validation failed"
  else if !specOk then .error "cannot load plugin spec"
  else
    match plugin_classes attrs with
    | [] => .error "no plugin class found"
    | [c] => .ok c
    | _ => .error "multiple plugin classes found"

/-! ### Plugin descriptors and the lifecycle registry (registry.py) -/

inductive PluginStatus where
  | discovered | loading | loaded | active | error | unloading | unloaded
  deriving DecidableEq

/-- A plugin descriptor: the plugin_info dict produced by discovery, extended with
oracle fields recording how the external world behaves for this descriptor —
whether security validation passes, whether instantiation (discovery.load_plugin)
succeeds, whether the plugin initialization callback succeeds, whether its cleanup
callback succeeds — and the permission set and configuration that the registry
assigns to the fresh instance. -/
structure Desc where
  name : String
  securityOk : Bool
  loadOk : Bool
  initOk : Bool
  cleanupOk : Bool
  perms : List (String × Bool)
  config : List (String × String)
  deriving DecidableEq

/-- A live plugin entity: the BasePlugin instance fields the claims speak about. -/
structure Entity where
  status : PluginStatus
  perms : List (String × Bool)
  config : List (String × String)
  cleanupOk : Bool
  deriving DecidableEq

/-- The combined mutable state: PluginRegistry.plugins, PluginRegistry.plugin_info,
and the host ToolRegistry._tools (membership of a name says the capability under
that name is registered; register_tool refuses duplicates, so the list stays
duplicate-free along reachable executions). -/
structure RegState where
  plugins : List (String × Entity)
  pluginInfo : List (String × Desc)
  tools : List String
  deriving DecidableEq

/-- The entity as it ends up in the live map after a fully successful load. -/
def activeEntity (d : Desc) : Entity :=
  { status := PluginStatus.active, perms := d.perms, config := d.config,
    cleanupOk := d.cleanupOk }

/-- The state after a fully successful load: both registry dicts gain the entry and
register_tool has appended the name. -/
def successState (s : RegState) (d : Desc) : RegState :=
  { plugins := dinsert s.plugins d.name (activeEntity d),
    pluginInfo := dinsert s.pluginInfo d.name d,
    tools := s.tools ++ [d.name] }

/-- PluginRegistry._load_and_register_plugin. Failed security validation and failed
initialization return None; a raise from discovery.load_plugin or from
ToolRegistry.register_tool (duplicate name) is re-raised as ToolRegistrationError —
both outcomes are collapsed to none here since every caller treats them alike and
neither touches the registry state. On success the stored instance is mutated to
status ACTIVE after registration, so the map holds the ACTIVE entity. -/
def load_and_register_plugin (s : RegState) (d : Desc) : RegState × Option Entity :=
  if !d.securityOk then (s, none)
  else if !d.loadOk then (s, none)
  else if !d.initOk then (s, none)
  else if d.name ∈ s.tools then (s, none)
  else (successState s d, some (activeEntity d))

/-- The dict returned by BasePlugin.safe_cleanup, restricted to the fields the
claims mention: the success flag and the status value recorded in the result. -/
structure CleanupRes where
  success : Bool
  status : PluginStatus
  deriving DecidableEq

/-- BasePlugin.safe_cleanup: status UNLOADING, then the cleanup callback; on success
status UNLOADED, on failure status ERROR, never raising. -/
def safe_cleanup (e : Entity) : Entity × CleanupRes :=
  let e1 := { e with status := PluginStatus.unloading }
  if e1.cleanupOk then
    ({ e1 with status := PluginStatus.unloaded },
     { success := true, status := PluginStatus.unloaded })
  else
    ({ e1 with status := PluginStatus.error },
     { success := false, status := PluginStatus.error })

/-- ToolRegistry.unregister_tool: delete when present, report whether it was. -/
def unregister_tool (tools : List String) (n : String) : List String × Bool :=
  if n ∈ tools then (tools.erase n, true) else (tools, false)

/-- The dict returned by PluginRegistry.unload_plugin, restricted to the fields the
claims mention; cleanup is the embedded cleanup_result, absent on failure. -/
structure UnloadRes where
  success : Bool
  cleanup : Option CleanupRes
  deriving DecidableEq

/-- PluginRegistry.unload_plugin: missing names fail with no state change; otherwise
cleanup runs (best effort), the tool is unregistered, and both dict entries are
deleted. The final del raises KeyError when plugin_info lacks the name, which the
outer except turns into a failure result after the earlier deletions already
happened — that branch is modelled faithfully although it is unreachable from the
operations below, whose two dicts always hold the same keys. -/
def unload_plugin (s : RegState) (n : String) : RegState × UnloadRes :=
  match dlookup s.plugins n with
  | none => (s, { success := false, cleanup := none })
  | some e =>
    let cr := (safe_cleanup e).2
    let tools1 := (unregister_tool s.tools n).1
    let plugins1 := ddelete s.plugins n
    if n ∈ dkeys s.pluginInfo then
      ({ plugins := plugins1, pluginInfo := ddelete s.pluginInfo n, tools := tools1 },
       { success := true, cleanup := some cr })
    else
      ({ plugins := plugins1, pluginInfo := s.pluginInfo, tools := tools1 },
       { success := false, cleanup := none })

/-- PluginRegistry.reload_plugin: requires a live entry and its stored plugin_info,
unloads, and on unload success loads again from the original descriptor. -/
def reload_plugin (s : RegState) (n : String) : RegState × Bool :=
  match dlookup s.plugins n with
  | none => (s, false)
  | some _ =>
    match dlookup s.pluginInfo n with
    | none => (s, false)
    | some info =>
      let u := unload_plugin s n
      if !u.2.success then (u.1, false)
      else
        let l := load_and_register_plugin u.1 info
        (l.1, l.2.isSome)

/-- The summary dict built by PluginRegistry.shutdown_all_plugins; errors keeps the
names of the plugins whose unload reported failure, in processing order. -/
structure ShutdownRes where
  total : Nat
  success : Nat
  failed : Nat
  errors : List String
  deriving DecidableEq

/-- One iteration of the shutdown loop: unload, then bump the success or the
failed counter, appending failed names to the error list. -/
def shutdown_step (acc : RegState × ShutdownRes) (n : String) : RegState × ShutdownRes :=
  let u := unload_plugin acc.1 n
  if u.2.success then (u.1, { acc.2 with success := acc.2.success + 1 })
  else (u.1, { acc.2 with failed := acc.2.failed + 1, errors := acc.2.errors ++ [n] })

/-- PluginRegistry.shutdown_all_plugins: total counted up front, then every live
name processed in reverse insertion order. -/
def shutdown_all_plugins (s : RegState) : RegState × ShutdownRes :=
  ((dkeys s.plugins).reverse).foldl shutdown_step
    (s, { total := (dkeys s.plugins).length, success := 0, failed := 0, errors := [] })

/-- The states reachable from a start state with no live plugins (the host registry
may already hold builtin tools, duplicate-free) by any sequence of the four
lifecycle operations. -/
inductive Reach : RegState → Prop where
  | start (ts : List String) (h : ts.Nodup) :
      Reach { plugins := [], pluginInfo := [], tools := ts }
  | load (s : RegState) (d : Desc) : Reach s → Reach (load_and_register_plugin s d).1
  | unload (s : RegState) (n : String) : Reach s → Reach (unload_plugin s n).1
  | reload (s : RegState) (n : String) : Reach s → Reach (reload_plugin s n).1
  | shutdown (s : RegState) : Reach s → Reach (shutdown_all_plugins s).1

/-! ### Discovery (discovery.py) -/

/-- One child of a scanned directory, as seen by PluginDiscovery._scan_directory:
its classification data and, as oracles, what _discover_file_plugin or
_discover_directory_plugin returns for it (none both for a candidate dropped after
an internal parse or load failure and for a directory with no entry point), and
whether touching the item raises so that the per-item except fires. -/
structure DirItem where
  itemName : String
  isFile : Bool
  isDir : Bool
  suffix : String
  procError : Bool
  fileResult : Option Desc
  dirResult : Option Desc
  deriving DecidableEq

/-- The body of the per-item loop of _scan_directory: file candidates are .py files
not starting with an underscore, directory candidates are directories not starting
with a dot; everything else is ignored. -/
def scan_item (it : DirItem) : Option Desc :=
  if it.procError then none
  else if it.isFile && (it.suffix = ".py") && !(startsWithChar it.itemName '_') then
    it.fileResult
  else if it.isDir && !(startsWithChar it.itemName '.') then it.dirResult
  else none

/-- PluginDiscovery._scan_directory over the listed children, in order. -/
def scan_directory (items : List DirItem) : List Desc :=
  items.filterMap scan_item

/-- One configured (validated) plugin directory: its children in iteration order
and whether scanning it raises (the per-directory except in discover_plugins). -/
structure ScanDir where
  scanOk : Bool
  items : List DirItem
  deriving DecidableEq

/-- PluginDiscovery.discover_plugins: extend the result with each scan, skipping a
directory whose scan raises. -/
def discover_plugins (dirs : List ScanDir) : List Desc :=
  dirs.foldl (fun acc d => if d.scanOk then acc ++ scan_directory d.items else acc) []

/-! ### Lemmas about the dict model -/

theorem dlookup_some_mem {α : Type} {l : List (String × α)} {k : String} {v : α}
    (h : dlookup l k = some v) : (k, v) ∈ l := by
  induction l with
  | nil => simp [dlookup] at h
  | cons p rest ih =>
    obtain ⟨k2, v2⟩ := p
    by_cases hk : k2 = k
    · subst hk
      simp [dlookup] at h
      simp [h]
    · simp [dlookup, hk] at h
      exact List.mem_cons_of_mem _ (ih h)

theorem mem_dkeys_of_lookup {α : Type} {l : List (String × α)} {k : String} {v : α}
    (h : dlookup l k = some v) : k ∈ dkeys l := by
  have := dlookup_some_mem h
  exact List.mem_map_of_mem (·.1) this

theorem lookup_of_mem_dkeys {α : Type} {l : List (String × α)} {k : String}
    (h : k ∈ dkeys l) : ∃ v, dlookup l k = some v := by
  induction l with
  | nil => simp [dkeys] at h
  | cons p rest ih =>
    obtain ⟨k2, v2⟩ := p
    by_cases hk : k2 = k
    · subst hk; exact ⟨v2, by simp [dlookup]⟩
    · simp [dkeys, hk] at h
      rcases h with h | h
      · exact absurd h.symm hk
      · obtain ⟨v, hv⟩ := ih (by simpa [dkeys] using h)
        exact ⟨v, by simpa [dlookup, hk] using hv⟩

theorem dkeys_map_update {α : Type} (l : List (String × α)) (k : String) (v : α) :
    dkeys (l.map (fun p => if p.1 = k then (k, v) else p)) = dkeys l := by
  induction l with
  | nil => rfl
  | cons p rest ih =>
    by_cases h : p.1 = k <;> simp [dkeys, h] at ih ⊢ <;> simpa [dkeys] using ih

theorem dkeys_dinsert_of_mem {α : Type} {l : List (String × α)} {k : String} (v : α)
    (h : k ∈ dkeys l) : dkeys (dinsert l k v) = dkeys l := by
  simp only [dinsert, if_pos h]
  exact dkeys_map_update l k v

theorem dinsert_of_not_mem {α : Type} {l : List (String × α)} {k : String} (v : α)
    (h : k ∉ dkeys l) : dinsert l k v = l ++ [(k, v)] := by
  simp [dinsert, h]

theorem mem_dinsert {α : Type} {l : List (String × α)} {k : String} {v : α}
    {p : String × α} (h : p ∈ dinsert l k v) : p ∈ l ∨ p = (k, v) := by
  by_cases hm : k ∈ dkeys l
  · simp only [dinsert, if_pos hm] at h
    obtain ⟨q, hq, rfl⟩ := List.mem_map.mp h
    by_cases h2 : q.1 = k
    · simp [h2]
    · simp only [if_neg h2]
      exact .inl hq
  · rw [dinsert_of_not_mem v hm] at h
    simpa using h

theorem mem_ddelete {α : Type} {l : List (String × α)} {k : String} {p : String × α}
    (h : p ∈ ddelete l k) : p ∈ l ∧ p.1 ≠ k := by
  have := List.mem_filter.mp h
  exact ⟨this.1, by simpa using this.2⟩

theorem dlookup_ddelete_self {α : Type} (l : List (String × α)) (k : String) :
    dlookup (ddelete l k) k = none := by
  induction l with
  | nil => rfl
  | cons p rest ih =>
    by_cases h : p.1 = k
    · simpa [ddelete, h] using ih
    · simpa [ddelete, dlookup, h] using ih

theorem dkeys_ddelete {α : Type} (l : List (String × α)) (k : String) :
    dkeys (ddelete l k) = (dkeys l).filter (fun x => x ≠ k) := by
  induction l with
  | nil => rfl
  | cons p rest ih =>
    by_cases h : p.1 = k <;> simp [ddelete, dkeys, h] at ih ⊢ <;>
      simpa [ddelete, dkeys] using ih

theorem dkeys_append {α : Type} (l1 l2 : List (String × α)) :
    dkeys (l1 ++ l2) = dkeys l1 ++ dkeys l2 := by
  simp [dkeys]

/-! ### Lemmas about the permission table -/

/-- Every permission key stored anywhere in the table is one of the thirteen
PluginPermission values. -/
def PermWF (t : PermTable) : Prop :=
  ∀ pr ∈ t, ∀ qv ∈ pr.2, qv.1 ∈ permissionValues

theorem permWF_nil : PermWF [] := by intro pr h; simp at h

theorem permWF_store {t : PermTable} (h : PermWF t) {pluginName permission : String}
    (hp : permission ∈ permissionValues) (enabled : Bool) :
    PermWF (store_permission t pluginName permission enabled) := by
  intro pr hpr qv hqv
  rcases mem_dinsert hpr with hold | rfl
  · exact h pr hold qv hqv
  · rcases mem_dinsert hqv with hold2 | rfl
    · cases hl : dlookup t pluginName with
      | none => simp [hl] at hold2
      | some inner =>
        rw [hl] at hold2
        exact h _ (dlookup_some_mem hl) qv hold2
    · exact hp

theorem permWF_step {t : PermTable} (h : PermWF t) (kv : String × String) :
    PermWF (load_permission_step t kv) := by
  unfold load_permission_step
  dsimp only
  split
  · split
    · split
      · exact permWF_store h ‹_› _
      · exact h
    · exact h
  · exact h

theorem permWF_foldl (env : List (String × String)) :
    ∀ t : PermTable, PermWF t → PermWF (env.foldl load_permission_step t) := by
  induction env with
  | nil => intro t h; exact h
  | cons kv rest ih =>
    intro t h
    exact ih _ (permWF_step h kv)

theorem permWF_load_config (env : List (String × String)) :
    PermWF (load_permission_config env) :=
  permWF_foldl env [] permWF_nil

theorem permissionValue_mem (p : PluginPermission) : p.value ∈ permissionValues := by
  cases p <;> decide

/-- The permission tables reachable by loading the environment once and then any
sequence of grant and revoke calls. -/
inductive PermReach : PermTable → Prop where
  | start (env : List (String × String)) : PermReach (load_permission_config env)
  | grant (t : PermTable) (n : String) (p : PluginPermission) :
      PermReach t → PermReach (grant_permission t n p)
  | revoke (t : PermTable) (n : String) (p : PluginPermission) :
      PermReach t → PermReach (revoke_permission t n p)

theorem permWF_reach {t : PermTable} (h : PermReach t) : PermWF t := by
  induction h with
  | start env => exact permWF_load_config env
  | grant t n p _ ih => exact permWF_store ih (permissionValue_mem p) _
  | revoke t n p _ ih => exact permWF_store ih (permissionValue_mem p) _

theorem dkeys_fold_update {α : Type} (inner : List (String × α)) :
    ∀ base : List (String × α), (∀ qv ∈ inner, qv.1 ∈ dkeys base) →
      dkeys (inner.foldl (fun acc p => dinsert acc p.1 p.2) base) = dkeys base := by
  induction inner with
  | nil => intro base _; rfl
  | cons q rest ih =>
    intro base h
    have hq : q.1 ∈ dkeys base := h q (by simp)
    have hkeys : dkeys (dinsert base q.1 q.2) = dkeys base := dkeys_dinsert_of_mem _ hq
    rw [List.foldl_cons, ih _ ?_, hkeys]
    intro qv hqv
    rw [hkeys]
    exact h qv (by simp [hqv])

/-! ### The lifecycle invariant -/

/-- The registry invariant: live names are duplicate-free, the two registry dicts
hold the same keys in the same order, the host tool list is duplicate-free, and
every live entity is ACTIVE with its name registered. -/
def Inv (s : RegState) : Prop :=
  (dkeys s.plugins).Nodup ∧
  dkeys s.plugins = dkeys s.pluginInfo ∧
  s.tools.Nodup ∧
  ∀ p ∈ s.plugins, p.2.status = PluginStatus.active ∧ p.1 ∈ s.tools

theorem load_fail_of_mem_tools {s : RegState} {d : Desc} (hm : d.name ∈ s.tools) :
    load_and_register_plugin s d = (s, none) := by
  unfold load_and_register_plugin
  cases d.securityOk <;> cases d.loadOk <;> cases d.initOk <;> simp [hm]

theorem load_success_characterization (s : RegState) (d : Desc) :
    load_and_register_plugin s d = (s, none) ∨
      (d.name ∉ s.tools ∧
       load_and_register_plugin s d = (successState s d, some (activeEntity d))) := by
  by_cases hm : d.name ∈ s.tools
  · exact .inl (load_fail_of_mem_tools hm)
  · unfold load_and_register_plugin
    cases d.securityOk <;> cases d.loadOk <;> cases d.initOk <;> simp [hm]

theorem inv_load {s : RegState} (h : Inv s) (d : Desc) :
    Inv (load_and_register_plugin s d).1 := by
  rcases load_success_characterization s d with heq | ⟨hm, heq⟩
  · rw [heq]; exact h
  · rw [heq]
    obtain ⟨h1, h2, h3, h4⟩ := h
    have hnp : d.name ∉ dkeys s.plugins := by
      intro hmem
      obtain ⟨v, hv⟩ := lookup_of_mem_dkeys hmem
      exact hm (h4 (d.name, v) (dlookup_some_mem hv)).2
    have hni : d.name ∉ dkeys s.pluginInfo := h2 ▸ hnp
    have hp : dinsert s.plugins d.name (activeEntity d) =
        s.plugins ++ [(d.name, activeEntity d)] := dinsert_of_not_mem _ hnp
    have hi : dinsert s.pluginInfo d.name d = s.pluginInfo ++ [(d.name, d)] :=
      dinsert_of_not_mem _ hni
    refine ⟨?_, ?_, ?_, ?_⟩
    · simp only [successState, hp, dkeys_append]
      simp only [List.nodup_append, dkeys]
      refine ⟨h1, by simp, ?_⟩
      intro x hx hy
      simp at hy
      subst hy
      exact hnp hx
    · simp only [successState, hp, hi, dkeys_append, h2]
      simp [dkeys]
    · simp [successState, List.nodup_append, h3, hm]
    · intro p hp2
      simp only [successState, hp, List.mem_append] at hp2
      rcases hp2 with hold | hnew
      · obtain ⟨hs, ht⟩ := h4 p hold
        exact ⟨hs, by simp [successState, ht]⟩
      · simp at hnew
        subst hnew
        exact ⟨rfl, by simp [successState]⟩

theorem unload_found {s : RegState} (hInv : Inv s) {n : String} {e : Entity}
    (h : dlookup s.plugins n = some e) :
    unload_plugin s n =
      ({ plugins := ddelete s.plugins n, pluginInfo := ddelete s.pluginInfo n,
         tools := s.tools.erase n },
       { success := true,
         cleanup := some { success := e.cleanupOk,
                           status := if e.cleanupOk then PluginStatus.unloaded
                                     else PluginStatus.error } }) := by
  obtain ⟨h1, h2, h3, h4⟩ := hInv
  have hk : n ∈ dkeys s.plugins := mem_dkeys_of_lookup h
  have hki : n ∈ dkeys s.pluginInfo := h2 ▸ hk
  have htool : n ∈ s.tools := (h4 _ (dlookup_some_mem h)).2
  unfold unload_plugin
  rw [h]
  cases hc : e.cleanupOk <;>
    simp [unregister_tool, htool, hki, safe_cleanup, hc]

theorem inv_delete {s : RegState} (hInv : Inv s) (n : String) :
    Inv { plugins := ddelete s.plugins n, pluginInfo := ddelete s.pluginInfo n,
          tools := s.tools.erase n } := by
  obtain ⟨h1, h2, h3, h4⟩ := hInv
  refine ⟨?_, ?_, ?_, ?_⟩
  · rw [dkeys_ddelete]
    exact h1.filter _
  · rw [dkeys_ddelete, dkeys_ddelete, h2]
  · exact h3.erase n
  · intro p hp
    obtain ⟨hold, hne⟩ := mem_ddelete hp
    obtain ⟨hs, ht⟩ := h4 p hold
    exact ⟨hs, (List.mem_erase_of_ne hne).mpr ht⟩

theorem inv_unload {s : RegState} (h : Inv s) (n : String) :
    Inv (unload_plugin s n).1 := by
  cases hl : dlookup s.plugins n with
  | none => simp only [unload_plugin, hl]; exact h
  | some e =>
    rw [unload_found h hl]
    exact inv_delete h n

theorem inv_reload {s : RegState} (h : Inv s) (n : String) :
    Inv (reload_plugin s n).1 := by
  unfold reload_plugin
  cases h1 : dlookup s.plugins n with
  | none => exact h
  | some e =>
    cases h2 : dlookup s.pluginInfo n with
    | none => exact h
    | some info =>
      dsimp only
      split
      · exact inv_unload h n
      · exact inv_load (inv_unload h n) info

theorem inv_shutdown_fold (ns : List String) :
    ∀ (s : RegState) (r : ShutdownRes), Inv s →
      Inv (ns.foldl shutdown_step (s, r)).1 := by
  induction ns with
  | nil => intro s r h; exact h
  | cons n rest ih =>
    intro s r h
    rw [List.foldl_cons]
    unfold shutdown_step
    dsimp only
    split <;> exact ih _ _ (inv_unload h n)

theorem inv_shutdown {s : RegState} (h : Inv s) :
    Inv (shutdown_all_plugins s).1 := by
  unfold shutdown_all_plugins
  exact inv_shutdown_fold _ s _ h

theorem reach_inv {s : RegState} (h : Reach s) : Inv s := by
  induction h with
  | start ts hts =>
    refine ⟨by simp [dkeys], rfl, hts, ?_⟩
    intro p hp
    simp at hp
  | load s d _ ih => exact inv_load ih d
  | unload s n _ ih => exact inv_unload ih n
  | reload s n _ ih => exact inv_reload ih n
  | shutdown s _ ih => exact inv_shutdown ih

theorem notMem_cons_decide {α : Type} [DecidableEq α] (a n : α) (rest : List α) :
    (decide (a ∉ rest) && decide (a ≠ n)) = decide (a ∉ n :: rest) := by
  by_cases h1 : a ∈ rest <;> by_cases h2 : a = n <;> simp [h1, h2]

theorem shutdown_fold_spec (ns : List String) :
    ∀ (s : RegState) (r : ShutdownRes), Inv s → ns.Nodup →
      (∀ n ∈ ns, n ∈ dkeys s.plugins) →
      (ns.foldl shutdown_step (s, r)).1.plugins
          = s.plugins.filter (fun p => p.1 ∉ ns) ∧
      (ns.foldl shutdown_step (s, r)).1.pluginInfo
          = s.pluginInfo.filter (fun p => p.1 ∉ ns) ∧
      (∀ m, m ∈ (ns.foldl shutdown_step (s, r)).1.tools ↔ m ∈ s.tools ∧ m ∉ ns) ∧
      (ns.foldl shutdown_step (s, r)).2.success = r.success + ns.length ∧
      (ns.foldl shutdown_step (s, r)).2.failed = r.failed ∧
      (ns.foldl shutdown_step (s, r)).2.errors = r.errors ∧
      (ns.foldl shutdown_step (s, r)).2.total = r.total := by
  induction ns with
  | nil =>
    intro s r _ _ _
    refine ⟨by simp, by simp, fun m => by simp, by simp, rfl, rfl, rfl⟩
  | cons n rest ih =>
    intro s r hInv hnd hmem
    have hn : n ∈ dkeys s.plugins := hmem n (by simp)
    obtain ⟨e, he⟩ := lookup_of_mem_dkeys hn
    have hstep : shutdown_step (s, r) n =
        ({ plugins := ddelete s.plugins n, pluginInfo := ddelete s.pluginInfo n,
           tools := s.tools.erase n },
         { total := r.total, success := r.success + 1, failed := r.failed,
           errors := r.errors }) := by
      unfold shutdown_step
      dsimp only
      rw [unload_found hInv he]
      simp
    have hInv1 : Inv { plugins := ddelete s.plugins n,
                       pluginInfo := ddelete s.pluginInfo n,
                       tools := s.tools.erase n } :=
      inv_delete hInv n
    have hnd1 : rest.Nodup := hnd.of_cons
    have hnrest : n ∉ rest := by
      intro hc
      exact (List.nodup_cons.mp hnd).1 hc
    have hmem1 : ∀ m ∈ rest, m ∈ dkeys (ddelete s.plugins n) := by
      intro m hm
      rw [dkeys_ddelete]
      have hne : m ≠ n := fun hc => hnrest (hc ▸ hm)
      simp only [List.mem_filter]
      exact ⟨hmem m (by simp [hm]), by simp [hne]⟩
    rw [List.foldl_cons, hstep]
    obtain ⟨ih1, ih2, ih3, ih4, ih5, ih6, ih7⟩ :=
      ih _ { total := r.total, success := r.success + 1, failed := r.failed,
             errors := r.errors } hInv1 hnd1 hmem1
    refine ⟨?_, ?_, ?_, ?_, ?_, ?_, ?_⟩
    · rw [ih1]
      show List.filter _ (List.filter _ s.plugins) = _
      rw [List.filter_filter]
      apply List.filter_congr
      intro p _
      exact notMem_cons_decide p.1 n rest
    · rw [ih2]
      show List.filter _ (List.filter _ s.pluginInfo) = _
      rw [List.filter_filter]
      apply List.filter_congr
      intro p _
      exact notMem_cons_decide p.1 n rest
    · intro m
      rw [ih3]
      have htools : s.tools.Nodup := hInv.2.2.1
      constructor
      · rintro ⟨hme, hmr⟩
        have := (List.Nodup.mem_erase_iff htools).mp hme
        exact ⟨this.2, by simp [this.1, hmr]⟩
      · rintro ⟨hmt, hmc⟩
        simp only [List.mem_cons, not_or] at hmc
        exact ⟨(List.Nodup.mem_erase_iff htools).mpr ⟨hmc.1, hmt⟩, hmc.2⟩
    · rw [ih4]; simp; omega
    · exact ih5
    · exact ih6
    · exact ih7

/-! ### Concrete example states used by witnesses and counterexamples -/

/-- The empty start state: no live plugins, no registered tools. -/
def s0ex : RegState := { plugins := [], pluginInfo := [], tools := [] }

/-- A well-behaved descriptor named a. -/
def dAex : Desc :=
  { name := "a", securityOk := true, loadOk := true, initOk := true,
    cleanupOk := true, perms := [], config := [] }

/-- A descriptor named b that loads fine but whose cleanup callback fails. -/
def dBex : Desc :=
  { name := "b", securityOk := true, loadOk := true, initOk := true,
    cleanupOk := false, perms := [], config := [] }

/-- The state after loading a into the empty state. -/
def s1ex : RegState := (load_and_register_plugin s0ex dAex).1

/-- The state after additionally loading b. -/
def s2ex : RegState := (load_and_register_plugin s1ex dBex).1

theorem reach_s0ex : Reach s0ex := Reach.start [] (by simp)

theorem reach_s1ex : Reach s1ex := Reach.load s0ex dAex reach_s0ex

theorem reach_s2ex : Reach s2ex := Reach.load s1ex dBex reach_s1ex

theorem dlookup_append_of_not_mem {α : Type} {l : List (String × α)} {k : String}
    (l2 : List (String × α)) (h : k ∉ dkeys l) :
    dlookup (l ++ l2) k = dlookup l2 k := by
  induction l with
  | nil => rfl
  | cons p rest ih =>
    have hne : p.1 ≠ k := by
      intro hc
      exact h (by simp [dkeys, hc])
    have hrest : k ∉ dkeys rest := fun hc => h (by simp [dkeys] at hc ⊢; tauto)
    obtain ⟨k2, v2⟩ := p
    simpa [dlookup, hne] using ih hrest

theorem dlookup_map_update_of_mem {α : Type} {l : List (String × α)} {k : String}
    (v : α) (h : k ∈ dkeys l) :
    dlookup (l.map (fun p => if p.1 = k then (k, v) else p)) k = some v := by
  induction l with
  | nil => simp [dkeys] at h
  | cons p rest ih =>
    obtain ⟨k2, v2⟩ := p
    rw [List.map_cons]
    by_cases hp : k2 = k
    · rw [show (if ((k2, v2) : String × α).1 = k then (k, v) else (k2, v2)) = (k, v)
          from by simp [hp]]
      simp [dlookup]
    · rw [show (if ((k2, v2) : String × α).1 = k then (k, v) else (k2, v2)) = (k2, v2)
          from by simp [hp]]
      have hrest : k ∈ dkeys rest := by
        simp [dkeys, hp] at h
        rcases h with h | h
        · exact absurd h.symm hp
        · simpa [dkeys] using h
      simp only [dlookup, if_neg hp]
      exact ih hrest

theorem dlookup_dinsert_self {α : Type} (l : List (String × α)) (k : String) (v : α) :
    dlookup (dinsert l k v) k = some v := by
  by_cases hm : k ∈ dkeys l
  · simp only [dinsert, if_pos hm]
    exact dlookup_map_update_of_mem v hm
  · rw [dinsert_of_not_mem v hm, dlookup_append_of_not_mem _ hm]
    simp [dlookup]

theorem validate_plugin_eq (dirs : List String) (info : PathInfo) :
    validate_plugin dirs info =
      (info.validatePathOk && info.fsExists && is_plugin_path_allowed dirs info &&
        info.readable && !info.worldWritable) := by
  unfold validate_plugin validate_file_permissions
  cases info.validatePathOk <;> cases info.fsExists <;>
    cases is_plugin_path_allowed dirs info <;> cases info.readable <;>
    cases info.worldWritable <;> simp

theorem discover_foldl (dirs : List ScanDir) :
    ∀ acc : List Desc,
      dirs.foldl (fun acc d => if d.scanOk then acc ++ scan_directory d.items else acc)
          acc
        = acc ++ (dirs.map
            (fun d => if d.scanOk then scan_directory d.items else [])).flatten := by
  induction dirs with
  | nil => intro acc; simp
  | cons d rest ih =>
    intro acc
    cases hd : d.scanOk <;> simp [hd, ih, List.append_assoc]

/-! ### The claims -/

/-- Claim C2: at every state reachable by load, unload, reload and shutdown
operations the live registry holds at most one plugin entity per name, and a load
attempt for a descriptor whose name is already live fails and returns the state
unchanged — the first entry with its status, permissions and configuration, the
stored descriptor, and the host registration all survive untouched. -/
theorem C2_unique_plugin_names {s : RegState} (hs : Reach s) :
    (dkeys s.plugins).Nodup ∧
    ∀ d : Desc, d.name ∈ dkeys s.plugins → load_and_register_plugin s d = (s, none) := by
  obtain ⟨h1, h2, h3, h4⟩ := reach_inv hs
  refine ⟨h1, ?_⟩
  intro d hd
  obtain ⟨v, hv⟩ := lookup_of_mem_dkeys hd
  exact load_fail_of_mem_tools (h4 (d.name, v) (dlookup_some_mem hv)).2

theorem C2_unique_plugin_names_witness :
    (dkeys s1ex.plugins).Nodup ∧ load_and_register_plugin s1ex dAex = (s1ex, none) :=
  ⟨(C2_unique_plugin_names reach_s1ex).1,
   (C2_unique_plugin_names reach_s1ex).2 dAex (by decide)⟩

/-- Claim C5: in every reachable state, a live plugin entity is registered with the
host capability registry exactly when its status is ACTIVE — no live entity is
ACTIVE without being registered, and no live entity in any other status has its
name registered. -/
theorem C5_registered_iff_active {s : RegState} (hs : Reach s) :
    ∀ p ∈ s.plugins, (p.2.status = PluginStatus.active ↔ p.1 ∈ s.tools) := by
  obtain ⟨_, _, _, h4⟩ := reach_inv hs
  intro p hp
  obtain ⟨hstat, htool⟩ := h4 p hp
  exact iff_of_true hstat htool

theorem C5_registered_iff_active_witness :
    (("a", activeEntity dAex) : String × Entity).2.status = PluginStatus.active ↔
      (("a", activeEntity dAex) : String × Entity).1 ∈ s1ex.tools :=
  C5_registered_iff_active reach_s1ex ("a", activeEntity dAex) (by decide)

/-- Claim C1 as frozen is falsified at a concrete reachable state: loading a second
descriptor named a into a state that already holds an ACTIVE plugin a reports
failure (registration conflict), yet the live map still contains an entry for that
name afterwards, so on this failure the map is not free of the name. -/
theorem C1_counterexample :
    (load_and_register_plugin s1ex dAex).2 = none ∧
    (dlookup (load_and_register_plugin s1ex dAex).1.plugins "a").isSome = true := by
  decide

/-- Claim C1 amended: after load_and_register returns, either it reports success and
the live map holds the new entity under the descriptor name with status ACTIVE and
the name registered in the host registry, or it reports failure and the entire
state is exactly as before the call — a failed load adds nothing, leaves no entity
in LOADING or LOADED, and leaves the host registry unchanged; in the
registration-conflict case the pre-existing entry therefore stays untouched rather
than the name being absent. -/
theorem C1_load_all_or_nothing (s : RegState) (d : Desc) :
    ((load_and_register_plugin s d).2.isSome = true →
      dlookup (load_and_register_plugin s d).1.plugins d.name
          = (load_and_register_plugin s d).2 ∧
      (∀ e, (load_and_register_plugin s d).2 = some e →
        e.status = PluginStatus.active) ∧
      d.name ∈ (load_and_register_plugin s d).1.tools) ∧
    ((load_and_register_plugin s d).2 = none →
      (load_and_register_plugin s d).1 = s) := by
  rcases load_success_characterization s d with heq | ⟨hm, heq⟩
  · rw [heq]
    exact ⟨fun h => by simp at h, fun _ => rfl⟩
  · rw [heq]
    refine ⟨fun _ => ⟨?_, ?_, ?_⟩, fun h => by simp at h⟩
    · exact dlookup_dinsert_self _ _ _
    · intro e he
      cases he
      rfl
    · simp [successState]

theorem C1_load_all_or_nothing_witness :
    dlookup (load_and_register_plugin s0ex dAex).1.plugins "a"
        = (load_and_register_plugin s0ex dAex).2 ∧
    (load_and_register_plugin s1ex dAex).1 = s1ex :=
  ⟨((C1_load_all_or_nothing s0ex dAex).1 (by decide)).1,
   (C1_load_all_or_nothing s1ex dAex).2 (by decide)⟩

/-- Claim C7 as frozen is falsified at a concrete reachable state: unloading plugin
b, whose cleanup callback fails, reports overall success, but the status recorded
for the entity is ERROR rather than the claimed UNLOADED. -/
theorem C7_counterexample :
    (unload_plugin s2ex "b").2.success = true ∧
    (unload_plugin s2ex "b").2.cleanup.map (fun c => c.status)
        = some PluginStatus.error ∧
    (unload_plugin s2ex "b").2.cleanup.map (fun c => c.status)
        ≠ some PluginStatus.unloaded := by
  decide

/-- Claim C7 amended: for a live name, unload runs cleanup and — even when cleanup
fails — still unregisters the name from the host registry, removes the entity and
its stored descriptor from the live maps, and reports overall success with the
cleanup outcome embedded in the result; the status it records is UNLOADED when
cleanup succeeded and ERROR when it failed. For a name not present, the call
reports failure and changes nothing. -/
theorem C7_unload_behaviour {s : RegState} (hs : Reach s) (n : String) :
    (dlookup s.plugins n = none →
      unload_plugin s n = (s, { success := false, cleanup := none })) ∧
    (∀ e, dlookup s.plugins n = some e →
      (unload_plugin s n).2.success = true ∧
      (unload_plugin s n).2.cleanup
          = some { success := e.cleanupOk,
                   status := if e.cleanupOk then PluginStatus.unloaded
                             else PluginStatus.error } ∧
      dlookup (unload_plugin s n).1.plugins n = none ∧
      dlookup (unload_plugin s n).1.pluginInfo n = none ∧
      n ∉ (unload_plugin s n).1.tools) := by
  have hInv := reach_inv hs
  constructor
  · intro h
    unfold unload_plugin
    rw [h]
  · intro e he
    rw [unload_found hInv he]
    refine ⟨rfl, rfl, dlookup_ddelete_self _ _, dlookup_ddelete_self _ _, ?_⟩
    intro hmem
    exact ((List.Nodup.mem_erase_iff hInv.2.2.1).mp hmem).1 rfl

theorem C7_unload_behaviour_witness :
    unload_plugin s2ex "zzz" = (s2ex, { success := false, cleanup := none }) ∧
    (unload_plugin s2ex "b").2.success = true :=
  ⟨(C7_unload_behaviour reach_s2ex "zzz").1 (by decide),
   ((C7_unload_behaviour reach_s2ex "b").2 (activeEntity dBex) (by decide)).1⟩

/-- Claim C6: shutdown processes every live name in the reverse of insertion order
(the first conjunct exposes the fold over the reversed key list), continues past
individual failures with the counters accounting for every plugin — success plus
failed equals the total and the error list carries one entry per failed unload;
along these reachable states the unload of a live name always reports success,
cleanup failures included, so all plugins are counted as successes — and after it
returns both live maps are empty and every plugin name is gone from the host
registry while unrelated registrations survive, regardless of individual cleanup
outcomes. -/
theorem C6_shutdown_total_teardown {s : RegState} (hs : Reach s) :
    shutdown_all_plugins s
        = ((dkeys s.plugins).reverse).foldl shutdown_step
            (s, { total := (dkeys s.plugins).length, success := 0, failed := 0,
                  errors := [] }) ∧
    (shutdown_all_plugins s).1.plugins = [] ∧
    (shutdown_all_plugins s).1.pluginInfo = [] ∧
    (shutdown_all_plugins s).2.total = (dkeys s.plugins).length ∧
    (shutdown_all_plugins s).2.success + (shutdown_all_plugins s).2.failed
        = (shutdown_all_plugins s).2.total ∧
    (shutdown_all_plugins s).2.errors.length = (shutdown_all_plugins s).2.failed ∧
    (∀ n ∈ dkeys s.plugins, n ∉ (shutdown_all_plugins s).1.tools) ∧
    (∀ n, n ∉ dkeys s.plugins →
      (n ∈ (shutdown_all_plugins s).1.tools ↔ n ∈ s.tools)) := by
  have hInv := reach_inv hs
  have hnd : ((dkeys s.plugins).reverse).Nodup := List.nodup_reverse.mpr hInv.1
  have hmem : ∀ n ∈ (dkeys s.plugins).reverse, n ∈ dkeys s.plugins := by
    intro n hn
    exact List.mem_reverse.mp hn
  obtain ⟨f1, f2, f3, f4, f5, f6, f7⟩ :=
    shutdown_fold_spec ((dkeys s.plugins).reverse) s
      { total := (dkeys s.plugins).length, success := 0, failed := 0, errors := [] }
      hInv hnd hmem
  have g1 : (shutdown_all_plugins s).1.plugins
      = s.plugins.filter (fun p => p.1 ∉ (dkeys s.plugins).reverse) := f1
  have g2 : (shutdown_all_plugins s).1.pluginInfo
      = s.pluginInfo.filter (fun p => p.1 ∉ (dkeys s.plugins).reverse) := f2
  have g3 : ∀ m, m ∈ (shutdown_all_plugins s).1.tools ↔
      m ∈ s.tools ∧ m ∉ (dkeys s.plugins).reverse := f3
  have g4 : (shutdown_all_plugins s).2.success
      = 0 + ((dkeys s.plugins).reverse).length := f4
  have g5 : (shutdown_all_plugins s).2.failed = 0 := f5
  have g6 : (shutdown_all_plugins s).2.errors = [] := f6
  have g7 : (shutdown_all_plugins s).2.total = (dkeys s.plugins).length := f7
  refine ⟨rfl, ?_, ?_, ?_, ?_, ?_, ?_, ?_⟩
  · rw [g1]
    apply List.filter_eq_nil_iff.mpr
    intro p hp
    simp only [decide_not, Bool.not_eq_true', decide_eq_false_iff_not, not_not]
    exact List.mem_reverse.mpr (List.mem_map_of_mem (·.1) hp)
  · rw [g2]
    apply List.filter_eq_nil_iff.mpr
    intro p hp
    simp only [decide_not, Bool.not_eq_true', decide_eq_false_iff_not, not_not]
    have : p.1 ∈ dkeys s.pluginInfo := List.mem_map_of_mem (·.1) hp
    exact List.mem_reverse.mpr (hInv.2.1 ▸ this)
  · exact g7
  · rw [g4, g5, g7]
    simp
  · rw [g6, g5]
    rfl
  · intro n hn hmem2
    exact ((g3 n).mp hmem2).2 (List.mem_reverse.mpr hn)
  · intro n hn
    constructor
    · intro hmem2
      exact ((g3 n).mp hmem2).1
    · intro hmem2
      exact (g3 n).mpr ⟨hmem2, fun hc => hn (List.mem_reverse.mp hc)⟩

theorem C6_shutdown_total_teardown_witness :
    (shutdown_all_plugins s2ex).1.plugins = [] ∧
    (shutdown_all_plugins s2ex).2.success + (shutdown_all_plugins s2ex).2.failed
        = (shutdown_all_plugins s2ex).2.total :=
  ⟨(C6_shutdown_total_teardown reach_s2ex).2.1,
   (C6_shutdown_total_teardown reach_s2ex).2.2.2.2.1⟩

/-- The allowed-directory list for the C3 counterexample. -/
def c3DirsEx : List String := ["/plugins"]

/-- A readable regular file in a sibling directory whose resolved string happens to
start with the string of the allowed directory. -/
def c3SiblingEx : PathInfo :=
  { resolved := "/pluginsevil/x.py", fsExists := true, readable := true,
    worldWritable := false, regularFile := true, validatePathOk := true }

/-- A target below the allowed directory that is not a regular file. -/
def c3DirTargetEx : PathInfo :=
  { resolved := "/plugins/sub", fsExists := true, readable := true,
    worldWritable := false, regularFile := false, validatePathOk := true }

/-- A world-writable file below the allowed directory. -/
def c3WwEx : PathInfo :=
  { resolved := "/plugins/w.py", fsExists := true, readable := true,
    worldWritable := true, regularFile := true, validatePathOk := true }

/-- Claim C3 as frozen is falsified on two counts: a regular file under the sibling
directory /pluginsevil, which lies under no allowed directory, passes validation,
because the containment test is a plain string-prefix test on resolved path
strings; and a target that is not a regular file (a directory below /plugins) also
passes, since no regular-file check is performed at all. -/
theorem C3_counterexample :
    (validate_plugin c3DirsEx c3SiblingEx = true ∧
      c3DirsEx.all (fun d => !(lies_under d c3SiblingEx.resolved)) = true) ∧
    (validate_plugin c3DirsEx c3DirTargetEx = true ∧
      c3DirTargetEx.regularFile = false) := by
  decide

/-- Claim C3 amended: validation fails closed — it rejects whenever the external
path check raises, whenever the target does not exist, whenever no allowed
directory resolved string is a string prefix of the resolved target string (the
actual containment test, which is weaker than directory containment), whenever the
target is unreadable, and whenever it is world-writable; when all five checks pass
it accepts, irrespective of the regular-file property and of any plugin metadata,
neither of which it consults. -/
theorem C3_validate_fail_closed (dirs : List String) (info : PathInfo) :
    (info.validatePathOk = false → validate_plugin dirs info = false) ∧
    (info.fsExists = false → validate_plugin dirs info = false) ∧
    (is_plugin_path_allowed dirs info = false → validate_plugin dirs info = false) ∧
    (info.readable = false → validate_plugin dirs info = false) ∧
    (info.worldWritable = true → validate_plugin dirs info = false) ∧
    (info.validatePathOk = true → info.fsExists = true →
      is_plugin_path_allowed dirs info = true → info.readable = true →
      info.worldWritable = false → validate_plugin dirs info = true) := by
  rw [validate_plugin_eq]
  refine ⟨?_, ?_, ?_, ?_, ?_, ?_⟩
  · intro h; simp [h]
  · intro h; simp [h]
  · intro h; simp [h]
  · intro h; simp [h]
  · intro h; simp [h]
  · intro h1 h2 h3 h4 h5
    simp [h1, h2, h3, h4, h5]

theorem C3_validate_fail_closed_witness :
    validate_plugin c3DirsEx c3WwEx = false ∧
    validate_plugin c3DirsEx c3SiblingEx = true :=
  ⟨(C3_validate_fail_closed c3DirsEx c3WwEx).2.2.2.2.1 rfl,
   (C3_validate_fail_closed c3DirsEx c3SiblingEx).2.2.2.2.2 rfl rfl (by decide)
     rfl rfl⟩

/-- The environment for the C4 failing input: the override key in exactly the
documented format, for plugin myplugin and permission read_files, set truthy. -/
def c4Env : List (String × String) :=
  [("PLUGIN_SECURITY_MYPLUGIN_READ_FILES", "true")]

/-- Claim C4 describes the documented override behaviour, but the code cannot
deliver it: the key PLUGIN_SECURITY_MYPLUGIN_READ_FILES with the truthy value true
is split on every underscore, so the permission token extracted is files, which is
not a recognized permission value — every recognized value contains an underscore,
so this happens for every key in the documented format whatever the plugin and the
permission. The override is logged and dropped, the override table stays empty, and
the resolved read_files flag for myplugin remains the default false instead of the
claimed true. -/
theorem C4_override_never_applies :
    load_permission_config c4Env = [] ∧
    dlookup (get_plugin_permissions (load_permission_config c4Env) "myplugin")
        "read_files" = some false := by
  decide

/-- Claim C10: starting from any loaded environment and after any sequence of grant
and revoke calls, the resolved permission mapping of every plugin has exactly the
thirteen permission flag values as its key list, in matrix order — overrides and
grants flip booleans at existing keys (the mapping is Bool-valued by construction)
but never add, remove or rename a key. -/
theorem C10_permission_key_set {t : PermTable} (ht : PermReach t) (name : String) :
    dkeys (get_plugin_permissions t name) = permissionValues := by
  have hwf := permWF_reach ht
  have hbase : dkeys default_permissions = permissionValues := by decide
  unfold get_plugin_permissions
  refine (dkeys_fold_update _ _ ?_).trans hbase
  intro qv hqv
  rw [hbase]
  cases hl : dlookup t (strLower name) with
  | none => rw [hl] at hqv; simp at hqv
  | some inner =>
    rw [hl] at hqv
    exact hwf _ (dlookup_some_mem hl) qv hqv

theorem C10_permission_key_set_witness :
    dkeys (get_plugin_permissions
        (grant_permission (load_permission_config c4Env) "alpha"
          PluginPermission.readFiles) "alpha") = permissionValues :=
  C10_permission_key_set
    (PermReach.grant _ _ _ (PermReach.start c4Env)) "alpha"

/-- Claim C8: when the module path validates and the module spec loads, the loader
returns the unique exported type satisfying the plugin contract if there is exactly
one such type, and rejects the candidate with a hard error whenever the module
exposes zero matching types or more than one. -/
theorem C8_unique_plugin_class {pathOk specOk : Bool} (h1 : pathOk = true)
    (h2 : specOk = true) (attrs : List ModuleAttr) :
    (∀ c, plugin_classes attrs = [c] →
      load_plugin_from_file pathOk specOk attrs = .ok c) ∧
    ((plugin_classes attrs).length ≠ 1 →
      ∃ msg, load_plugin_from_file pathOk specOk attrs = .error msg) := by
  subst h1 h2
  constructor
  · intro c hc
    simp [load_plugin_from_file, hc]
  · intro hlen
    rcases hpc : plugin_classes attrs with _ | ⟨c, _ | ⟨d, t⟩⟩
    · exact ⟨"no plugin class found", by simp [load_plugin_from_file, hpc]⟩
    · exact absurd (by rw [hpc]; rfl) hlen
    · exact ⟨"multiple plugin classes found", by simp [load_plugin_from_file, hpc]⟩

/-- A module attribute that is a strict BasePlugin subclass. -/
def attrGoodEx : ModuleAttr :=
  { attrName := "MyPlugin", isType := true, subclassOfBasePlugin := true,
    isBasePluginItself := false }

theorem C8_unique_plugin_class_witness :
    load_plugin_from_file true true [attrGoodEx] = .ok attrGoodEx ∧
    ∃ msg, load_plugin_from_file true true [attrGoodEx, attrGoodEx] = .error msg :=
  ⟨(C8_unique_plugin_class rfl rfl [attrGoodEx]).1 attrGoodEx (by decide),
   (C8_unique_plugin_class rfl rfl [attrGoodEx, attrGoodEx]).2 (by decide)⟩

/-- Claim C9: discovery returns the order-preserving concatenation of the
per-directory scan results (a directory whose listing raises contributes nothing),
and inside one directory a candidate whose discovery fails is dropped without
affecting any sibling: scanning the surrounding item list yields exactly the scan
of the items before the failing candidate followed by the scan of the items after
it, so every other valid candidate still appears, in order. -/
theorem C9_discovery_isolation (dirs : List ScanDir) :
    discover_plugins dirs
        = (dirs.map (fun d => if d.scanOk then scan_directory d.items else [])).flatten ∧
    ∀ pre (bad : DirItem) post, scan_item bad = none →
      scan_directory (pre ++ bad :: post)
        = scan_directory pre ++ scan_directory post := by
  constructor
  · unfold discover_plugins
    rw [discover_foldl]
    simp
  · intro pre bad post hbad
    simp [scan_directory, List.filterMap_append, List.filterMap_cons, hbad]

/-- A directory child that discovery resolves to the descriptor dAex. -/
def itemGoodEx : DirItem :=
  { itemName := "alpha.py", isFile := true, isDir := false, suffix := ".py",
    procError := false, fileResult := some dAex, dirResult := none }

/-- A directory child whose candidate discovery fails and returns nothing. -/
def itemBadEx : DirItem :=
  { itemName := "broken.py", isFile := true, isDir := false, suffix := ".py",
    procError := false, fileResult := none, dirResult := none }

/-- A scannable directory holding one good and one failing candidate. -/
def dirEx : ScanDir := { scanOk := true, items := [itemGoodEx, itemBadEx] }

theorem C9_discovery_isolation_witness :
    discover_plugins [dirEx]
        = ([dirEx].map
            (fun d => if d.scanOk then scan_directory d.items else [])).flatten ∧
    scan_directory ([itemGoodEx] ++ itemBadEx :: [itemGoodEx])
        = scan_directory [itemGoodEx] ++ scan_directory [itemGoodEx] :=
  ⟨(C9_discovery_isolation [dirEx]).1,
   (C9_discovery_isolation [dirEx]).2 [itemGoodEx] itemBadEx [itemGoodEx] (by decide)⟩

end MCP
